import Mathlib

/-!
Shallow embedding of the wstunnel client (src/client.go) together with
theorems checking the natural-language specification against it.

The embedding models the pure decision logic of the source: string
operations from the Go standard library are re-implemented over lists of
characters, the file system, the PEM parser, the proxy environment and
the network are passed in as explicit function parameters, and the
stateful relay loop is rendered as an explicit trace of actions.
-/

namespace Wstunnel

/-! ## String operations embedded from the Go standard library -/

/-- Embedding of strings.Replace(s, pat, rep, 1) restricted to a non-empty
pattern: replace the first occurrence of pat, scanning left to right, and
leave the string unchanged when pat does not occur. Used by
getProxiedConn for the ws to http scheme rewrite (src/client.go line 99). -/
def replaceFirstCh : List Char → List Char → List Char → List Char
  | [], _pat, _rep => []
  | c :: rest, pat, rep =>
    if pat.isPrefixOf (c :: rest) then rep ++ (c :: rest).drop pat.length
    else c :: replaceFirstCh rest pat rep

/-- String wrapper for replaceFirstCh. -/
def goReplaceFirst (s pat rep : String) : String :=
  String.mk (replaceFirstCh s.toList pat.toList rep.toList)

/-- Embedding of strings.Split(s, sep) for a one-character separator:
the list of segments of s between occurrences of sep. Always non-empty,
matching the Go contract that Split returns at least one element. Used by
getTlsConfig (src/client.go line 52). -/
def splitOnChar (sep : Char) : List Char → List (List Char)
  | [] => [[]]
  | c :: rest =>
    if c = sep then [] :: splitOnChar sep rest
    else
      match splitOnChar sep rest with
      | s :: ss => (c :: s) :: ss
      | [] => [[c]]

/-- Embedding of strings.Split(s, sep)[0]: the first segment. -/
def goSplitHead (s : String) (sep : Char) : String :=
  String.mk ((splitOnChar sep s.toList).headD [])

/-- Modelled from the spec: the substring of a string before the first
colon, the whole string when it contains no colon (spec section 4.1,
server name resolution). Stated independently of the source embedding so
that the two can be compared. -/
def hostBeforeColon (s : String) : String :=
  String.mk (s.toList.takeWhile (fun c => c != ':'))

/-! ## Errors

Go errors are opaque values compared by identity; the only error the
source compares against is httputil.ErrPersistEOF (src/client.go line
116), so the embedding distinguishes that sentinel from all other errors,
which carry their message. -/

inductive GoErr where
  | persistEOF
  | errMsg (msg : String)
deriving DecidableEq

/-- Startup configuration errors (the spec calls them ConfigError). The
only one the source produces is the CA read failure at src/client.go
line 49. -/
inductive ConfigErr where
  | readFailed (msg : String)
deriving DecidableEq

/-! ## Config Builder: getTlsConfig and getWsConfig -/

/-- Embedding of the tls.Config value built by getTlsConfig
(src/client.go lines 37 to 55). Certificates are opaque ids; the numeric
fields carry the Go constant values (tls.VersionTLS12, the two cipher
suite ids, the three curve ids). -/
structure TlsCfg where
  rootCAs : List Nat
  curvePreferences : List Nat
  minVersion : Nat
  cipherSuites : List Nat
  serverName : String
deriving DecidableEq

/-- Embedding of path.Join(certsDir, "cacert.pem") (src/client.go line
46) for an already clean, non-empty directory name without a trailing
slash. -/
def cacertPath (certsDir : String) : String := certsDir ++ "/cacert.pem"

/-- Embedding of getTlsConfig (src/client.go lines 32 to 57).

The file system is the parameter fs (none models a read error) and the
x509 PEM parser is the parameter parsePEM, returning the list of
certificates found in the bundle. The source calls
tlscfg.RootCAs.AppendCertsFromPEM(ca) and DISCARDS its Bool result
(line 47), so a readable bundle that parses to no certificates still
yields a successful config whose root pool is empty. The server name is
assigned from strings.Split(targetHost, ":")[0] and then overwritten by
the serverName flag when that flag is non-empty (lines 52 to 55). -/
def getTlsConfig (fs : String → Option String) (parsePEM : String → List Nat)
    (certsDir serverName targetHost : String) : Except ConfigErr (Option TlsCfg) :=
  if certsDir = "" then
    Except.ok none
  else
    match fs (cacertPath certsDir) with
    | some ca =>
        Except.ok (some
          { rootCAs := parsePEM ca
            curvePreferences := [25, 24, 23]
            minVersion := 0x0303
            cipherSuites := [0xc030, 0xc02c]
            serverName :=
              if serverName ≠ "" then serverName else goSplitHead targetHost ':' })
    | none => Except.error (ConfigErr.readFailed "Failed reading CA certificate")

/-- A URL as the source uses it: a scheme and a host (which carries the
port, as in host:port). -/
structure Url where
  scheme : String
  host : String
deriving DecidableEq

/-- The string form of a url.URL with only Scheme and Host set, as
produced by url.String() for such values. -/
def urlString (u : Url) : String := u.scheme ++ "://" ++ u.host

/-- Embedding of the websocket.Config built by getWsConfig: the location
URL, the fixed origin and the embedded TLS config. -/
structure WsCfg where
  location : Url
  origin : String
  tlsConfig : Option TlsCfg
deriving DecidableEq

/-- Embedding of getWsConfig (src/client.go lines 59 to 75): scheme ws,
switched to wss when certsDir is non-empty; origin is the constant
http://localhost/; a getTlsConfig failure propagates. The URL parse
inside websocket.NewConfig is not modelled as fallible: for a location
of the form scheme://host it reproduces the input. -/
def getWsConfig (fs : String → Option String) (parsePEM : String → List Nat)
    (certsDir serverName targetHost : String) : Except ConfigErr WsCfg :=
  let u : Url := { scheme := if certsDir ≠ "" then "wss" else "ws", host := targetHost }
  match getTlsConfig fs parsePEM certsDir serverName targetHost with
  | Except.error e => Except.error e
  | Except.ok t =>
      Except.ok { location := u, origin := "http://localhost/", tlsConfig := t }

/-- The startup phase of main (src/client.go lines 160 to 171): a
getWsConfig error panics before net.Listen is reached, so the listener
never starts; otherwise the process reaches the accept loop with the
built config. -/
inductive Startup where
  | panicked (e : ConfigErr)
  | listening (cfg : WsCfg)
deriving DecidableEq

/-- Embedding of the startup phase of main. -/
def mainStartup (fs : String → Option String) (parsePEM : String → List Nat)
    (certsDir serverName targetHost : String) : Startup :=
  match getWsConfig fs parsePEM certsDir serverName targetHost with
  | Except.error e => Startup.panicked e
  | Except.ok cfg => Startup.listening cfg

/-! ## Proxy Discovery and Dialer: getProxiedConn -/

/-- The ambient proxy environment and network, as getProxiedConn
(src/client.go lines 92 to 123) observes them. Connections are opaque
ids (Nat).

socksDialer: proxy.FromEnvironment(); none models the Direct dialer
(no SOCKS5 proxy in the environment), some d models a discovered SOCKS5
proxy whose Dial("tcp", host) behaves as d host.

httpProxyFor: http.ProxyFromEnvironment for a request with the given
URL, returning the pair (proxy URL or none, error or none); as in Go,
a lookup error comes with a nil proxy URL.

netDial: net.Dial("tcp", host).

connectDo: the outcome of cc.Do of a CONNECT request with the given
target authority over the given proxy connection; none models a nil
error. -/
structure ProxyEnv where
  socksDialer : Option (String → Except GoErr Nat)
  httpProxyFor : Url → Option Url × Option GoErr
  netDial : String → Except GoErr Nat
  connectDo : Nat → String → Option GoErr

/-- The URL used only for the HTTP proxy environment lookup: the target
URL with its scheme rewritten by strings.Replace(scheme, "ws", "http", 1)
(src/client.go line 99). The host is untouched. -/
def lookupUrl (turl : Url) : Url :=
  { turl with scheme := goReplaceFirst turl.scheme "ws" "http" }

/-- The HTTP CONNECT branch of getProxiedConn (src/client.go lines 105
to 122): dial the proxy host, issue CONNECT naming the target host:port,
fail on any error other than httputil.ErrPersistEOF, then hijack the
raw proxy connection out of the HTTP wrapper and return it. The hijack
also returns a buffered reader which the source discards; the
ProxyClientConn model below covers that aspect. -/
def connectViaProxy (env : ProxyEnv) (proxyUrl : Url) (targetAuthority : String) :
    Except GoErr Nat :=
  match env.netDial proxyUrl.host with
  | Except.error e => Except.error e
  | Except.ok p =>
      match env.connectDo p targetAuthority with
      | some e => if e = GoErr.persistEOF then Except.ok p else Except.error e
      | none => Except.ok p

/-- Embedding of getProxiedConn (src/client.go lines 92 to 123): SOCKS5
proxy first, then HTTP(S) proxy with CONNECT, then a direct dial. Note
that the error of the HTTP proxy lookup is never inspected: only the
proxy URL being nil or not decides the branch. -/
def getProxiedConn (env : ProxyEnv) (turl : Url) : Except GoErr Nat :=
  match env.socksDialer with
  | some d => d turl.host
  | none =>
      match (env.httpProxyFor (lookupUrl turl)).1 with
      | none => env.netDial turl.host
      | some proxyUrl => connectViaProxy env proxyUrl turl.host

/-! ## The hijack of the HTTP wrapper (C9) -/

/-- The state of the httputil proxy client wrapper right after the
CONNECT response has been parsed: buffered holds the bytes its bufio
reader has already read from the socket beyond the response, connStream
holds the bytes still unread on the socket. Hijack returns the raw
connection (whose future reads yield connStream) together with the
buffered reader content; the source keeps only the connection
(conn, _ := cc.Hijack() at src/client.go line 120). -/
structure ProxyClientConn where
  buffered : List Nat
  connStream : List Nat
deriving DecidableEq

/-- Embedding of cc.Hijack(): the detached raw connection stream and the
content of the discarded buffered reader. -/
def ProxyClientConn.hijack (cc : ProxyClientConn) : List Nat × List Nat :=
  (cc.connStream, cc.buffered)

/-- The byte stream the caller of getProxiedConn can read from the
returned connection: the source binds only the first component of the
hijack. -/
def hijackedConnStream (cc : ProxyClientConn) : List Nat := cc.hijack.1

/-- All bytes the upstream peer actually sent past the CONNECT response:
what a lossless detach would deliver. -/
def fullUpstreamBytes (cc : ProxyClientConn) : List Nat :=
  cc.buffered ++ cc.connStream

/-! ## Relay Engine: the pump loop of handleConnection -/

/-- Observable actions of the orchestrating loop of handleConnection
(src/client.go lines 145 to 157) and of its deferred closes. recv is a
receive from the capacity-2 completion channel, carrying the pump
outcome (none for end of stream, some e for an error); closeUpstream is
the deferred ws.Close() (which also closes the underlying tcp
connection) and closeLocal the deferred conn.Close(). -/
inductive RelayAction where
  | recv (outcome : Option GoErr)
  | logErr (e : GoErr)
  | closeWriteLocal
  | closeWriteUpstream
  | closeUpstream
  | closeLocal
deriving DecidableEq

/-- The trace of the two-iteration for loop at src/client.go lines 149
to 157, given the first and second completions in channel arrival order:
each iteration receives; an error is logged and the function returns at
once; otherwise closeWrite is attempted on the local connection and on
the upstream connection and the loop continues. -/
def pumpLoopTrace (o1 o2 : Option GoErr) : List RelayAction :=
  match o1 with
  | some e => [RelayAction.recv (some e), RelayAction.logErr e]
  | none =>
      RelayAction.recv none :: RelayAction.closeWriteLocal ::
        RelayAction.closeWriteUpstream ::
        match o2 with
        | some e => [RelayAction.recv (some e), RelayAction.logErr e]
        | none => [RelayAction.recv none, RelayAction.closeWriteLocal,
            RelayAction.closeWriteUpstream]

/-- The full relay trace: the loop followed by the deferred closes,
which run on every exit path (ws.Close then conn.Close, in LIFO defer
order). -/
def relayTrace (o1 o2 : Option GoErr) : List RelayAction :=
  pumpLoopTrace o1 o2 ++ [RelayAction.closeUpstream, RelayAction.closeLocal]

/-- Whether an action is a channel receive. -/
def isRecv : RelayAction → Bool
  | RelayAction.recv _ => true
  | _ => false

/-- How many completions the orchestrator received before returning. -/
def recvCount (t : List RelayAction) : Nat := t.countP isRecv

/-- A connection as the closeWrite helper sees it: whether its dynamic
type implements the closeable interface (CloseWrite), and whether its
write half has been shut down. -/
structure ConnModel where
  supportsCloseWrite : Bool
  writeClosed : Bool
deriving DecidableEq

/-- Embedding of closeWrite (src/client.go lines 86 to 90): a type
assertion to the closeable interface, calling CloseWrite when it
succeeds and doing nothing otherwise. -/
def closeWrite (c : ConnModel) : ConnModel :=
  if c.supportsCloseWrite then { c with writeClosed := true } else c

/-! ## Handshake Chain: open and close bookkeeping of handleConnection -/

/-- The step of the handshake chain at which a session failed. The lazy
TLS handshake of a wrapped connection surfaces during
websocket.NewClient, so a TLS failure is a wsUpgradeStep failure. -/
inductive HsStage where
  | dialStep
  | wsUpgradeStep
deriving DecidableEq

/-- Which connections a finished session run opened and, at the moment
handleConnection returned, had closed. -/
structure SessionReport where
  failedAt : Option HsStage
  upstreamOpened : Bool
  upstreamClosed : Bool
  localClosed : Bool
deriving DecidableEq

/-- Embedding of the open and close bookkeeping of handleConnection
(src/client.go lines 125 to 143), given the outcomes of getProxiedConn
and of websocket.NewClient. The deferred conn.Close() (line 126) closes
the local connection on every path. On a dial failure nothing upstream
was opened. On a websocket.NewClient failure the function returns with
only that defer pending: NewClient does not close its argument on
failure and no tcp.Close() exists on this path, so the raw (possibly
TLS-wrapped) upstream connection stays open. On success the deferred
ws.Close() (line 143) closes the websocket and with it the underlying
upstream connection. -/
def handleConnectionReport (dialResult : Except GoErr Nat) (wsResult : Except GoErr Unit) :
    SessionReport :=
  match dialResult with
  | Except.error _ =>
      { failedAt := some HsStage.dialStep, upstreamOpened := false,
        upstreamClosed := false, localClosed := true }
  | Except.ok _ =>
      match wsResult with
      | Except.error _ =>
          { failedAt := some HsStage.wsUpgradeStep, upstreamOpened := true,
            upstreamClosed := false, localClosed := true }
      | Except.ok _ =>
          { failedAt := none, upstreamOpened := true,
            upstreamClosed := true, localClosed := true }

/-- The TLS wrap decision of handleConnection (src/client.go lines 134
to 136): the dialed connection is wrapped as a TLS client exactly when
certsDir is non-empty. -/
inductive UpstreamConn where
  | plain (id : Nat)
  | tlsWrapped (id : Nat)
deriving DecidableEq

/-- Embedding of the wrap step at src/client.go lines 134 to 136. -/
def wrapUpstream (certsDir : String) (tcp : Nat) : UpstreamConn :=
  if certsDir ≠ "" then UpstreamConn.tlsWrapped tcp else UpstreamConn.plain tcp

/-! ## Concrete instances used to evaluate the model -/

/-- A file system holding a readable but non-PEM CA bundle at the fixed
path inside the directory certs. -/
def fsUnparsable : String → Option String :=
  fun p => if p = "certs/cacert.pem" then some "this is not PEM data" else none

/-- A PEM parse that finds no certificates in its input, as
AppendCertsFromPEM does on malformed content. -/
def parseNoCerts : String → List Nat := fun _ => []

/-- A file system on which every read fails. -/
def fsAbsent : String → Option String := fun _ => none

/-- A file system holding a readable CA bundle everywhere. -/
def fsReadable : String → Option String := fun _ => some "PEM-BUNDLE"

/-- A PEM parse finding exactly one certificate. -/
def parseOneCert : String → List Nat := fun _ => [1]

/-- An environment with both a SOCKS5 proxy and an HTTP proxy
discoverable. -/
def socksEnv : ProxyEnv :=
  { socksDialer := some (fun _ => Except.ok 1)
    httpProxyFor := fun _ => (some { scheme := "http", host := "proxy.corp:3128" }, none)
    netDial := fun _ => Except.ok 2
    connectDo := fun _ _ => none }

/-- An environment with no SOCKS5 proxy, an HTTP proxy discoverable, and
a CONNECT exchange that ends in httputil.ErrPersistEOF. -/
def persistEofEnv : ProxyEnv :=
  { socksDialer := none
    httpProxyFor := fun _ => (some { scheme := "http", host := "proxy.corp:3128" }, none)
    netDial := fun _ => Except.ok 5
    connectDo := fun _ _ => some GoErr.persistEOF }

/-- An environment where the HTTP proxy lookup itself fails (malformed
proxy variable): no proxy URL, a non-nil error. -/
def badProxyEnv : ProxyEnv :=
  { socksDialer := none
    httpProxyFor := fun _ => (none, some (GoErr.errMsg "invalid proxy address"))
    netDial := fun _ => Except.ok 3
    connectDo := fun _ _ => none }

/-! ## Theorems -/

theorem splitOnChar_ne_nil (sep : Char) (l : List Char) : splitOnChar sep l ≠ [] := by
  cases l with
  | nil => simp [splitOnChar]
  | cons c rest =>
    simp only [splitOnChar]
    split
    · simp
    · split <;> simp

theorem splitOnChar_headD (sep : Char) (l : List Char) :
    (splitOnChar sep l).headD [] = l.takeWhile (fun c => c != sep) := by
  induction l with
  | nil => rfl
  | cons c rest ih =>
    by_cases h : c = sep
    · simp [splitOnChar, h, List.takeWhile_cons]
    · have hb : (c != sep) = true := by simp [h]
      cases hs : splitOnChar sep rest with
      | nil => exact absurd hs (splitOnChar_ne_nil sep rest)
      | cons s ss =>
        simp only [splitOnChar, if_neg h, hs, List.headD_cons, List.takeWhile_cons, hb,
          cond_true]
        have : s = rest.takeWhile (fun x => x != sep) := by
          simpa [hs] using ih
        simp [this]

/-- The first component of the Go split equals the spec description:
everything before the first colon. -/
theorem goSplitHead_eq_hostBeforeColon (s : String) :
    goSplitHead s ':' = hostBeforeColon s :=
  congrArg String.mk (splitOnChar_headD ':' s.toList)

/-- C4: for every target URL and every proxy environment, getProxiedConn
chooses exactly one of three mutually exclusive, exhaustive branches in
strict order: a discoverable SOCKS5 proxy is used to dial the target
host:port regardless of any HTTP proxy; otherwise a discoverable HTTP(S)
proxy (looked up on the target with its scheme rewritten ws to http and
wss to https, the host untouched) is dialed and a CONNECT names the
original target host:port; otherwise the target is dialed directly. -/
theorem dialBranchSelection (env : ProxyEnv) (turl : Url) :
    (∀ d, env.socksDialer = some d → getProxiedConn env turl = d turl.host) ∧
    (env.socksDialer = none → (env.httpProxyFor (lookupUrl turl)).1 = none →
        getProxiedConn env turl = env.netDial turl.host) ∧
    (∀ proxyUrl, env.socksDialer = none →
        (env.httpProxyFor (lookupUrl turl)).1 = some proxyUrl →
        getProxiedConn env turl = connectViaProxy env proxyUrl turl.host) ∧
    lookupUrl turl =
        { scheme := goReplaceFirst turl.scheme "ws" "http", host := turl.host } ∧
    goReplaceFirst "ws" "ws" "http" = "http" ∧
    goReplaceFirst "wss" "ws" "http" = "https" := by
  refine ⟨?_, ?_, ?_, rfl, rfl, rfl⟩
  · intro d hd
    simp [getProxiedConn, hd]
  · intro hs hl
    simp [getProxiedConn, hs, hl]
  · intro proxyUrl hs hl
    simp [getProxiedConn, hs, hl]

/-- Witness for C4: in an environment where both a SOCKS5 and an HTTP
proxy are discoverable, the SOCKS5 branch is taken. -/
theorem dialBranchSelectionWitness :
    getProxiedConn socksEnv { scheme := "wss", host := "tunnel.example:443" } =
      Except.ok 1 :=
  (dialBranchSelection socksEnv { scheme := "wss", host := "tunnel.example:443" }).1
    (fun _ => Except.ok 1) rfl

/-- C8: in the HTTP CONNECT branch, a CONNECT exchange ending in
httputil.ErrPersistEOF is treated as a successful tunnel establishment:
the raw proxy connection is still detached and returned (as it is on a
nil error); every other non-nil CONNECT error fails the dial attempt. -/
theorem connectPersistEofTolerated (env : ProxyEnv) (proxyUrl : Url)
    (targetAuthority : String) (p : Nat)
    (hd : env.netDial proxyUrl.host = Except.ok p) :
    (env.connectDo p targetAuthority = some GoErr.persistEOF →
        connectViaProxy env proxyUrl targetAuthority = Except.ok p) ∧
    (env.connectDo p targetAuthority = none →
        connectViaProxy env proxyUrl targetAuthority = Except.ok p) ∧
    (∀ e, env.connectDo p targetAuthority = some e → e ≠ GoErr.persistEOF →
        connectViaProxy env proxyUrl targetAuthority = Except.error e) := by
  refine ⟨?_, ?_, ?_⟩
  · intro hc
    simp [connectViaProxy, hd, hc]
  · intro hc
    simp [connectViaProxy, hd, hc]
  · intro e hc hne
    simp [connectViaProxy, hd, hc, hne]

/-- Witness for C8: at the persistEofEnv environment the CONNECT branch
succeeds and returns the raw proxy connection. -/
theorem connectPersistEofToleratedWitness :
    connectViaProxy persistEofEnv { scheme := "http", host := "proxy.corp:3128" }
        "tunnel.example:443" = Except.ok 5 :=
  (connectPersistEofTolerated persistEofEnv
      { scheme := "http", host := "proxy.corp:3128" } "tunnel.example:443" 5 rfl).1 rfl

/-- C10: when the HTTP proxy environment lookup fails (no proxy URL, a
non-nil error) and no SOCKS5 proxy is discoverable, getProxiedConn
silently ignores the lookup error and dials the target directly. -/
theorem proxyLookupErrorIgnored (env : ProxyEnv) (turl : Url) (e : GoErr)
    (hs : env.socksDialer = none)
    (hl : env.httpProxyFor (lookupUrl turl) = (none, some e)) :
    getProxiedConn env turl = env.netDial turl.host := by
  simp [getProxiedConn, hs, hl]

/-- Witness for C10: with a malformed proxy variable the direct dial
succeeds and its connection is returned, no DialError is raised. -/
theorem proxyLookupErrorIgnoredWitness :
    getProxiedConn badProxyEnv { scheme := "ws", host := "tunnel.example:80" } =
      Except.ok 3 :=
  (proxyLookupErrorIgnored badProxyEnv { scheme := "ws", host := "tunnel.example:80" }
      (GoErr.errMsg "invalid proxy address") rfl rfl).trans rfl

/-- C9: the source keeps only the connection component of the hijack, so
the caller reads exactly the unbuffered socket stream; whenever the
discarded reader had read ahead, the delivered stream differs from the
full byte sequence the upstream peer sent, and the buffered bytes are
lost. -/
theorem hijackDiscardsReadAhead (cc : ProxyClientConn) :
    hijackedConnStream cc = cc.connStream ∧
    (cc.buffered ≠ [] → hijackedConnStream cc ≠ fullUpstreamBytes cc) := by
  refine ⟨rfl, fun hb heq => hb ?_⟩
  have hlen := congrArg List.length heq
  simp only [hijackedConnStream, ProxyClientConn.hijack, fullUpstreamBytes,
    List.length_append] at hlen
  exact List.eq_nil_of_length_eq_zero (by omega)

/-- Witness for C9: with two bytes read ahead and one byte left on the
socket, the delivered stream is not the full upstream byte sequence. -/
theorem hijackDiscardsReadAheadWitness :
    hijackedConnStream { buffered := [4, 2], connStream := [9] } ≠
      fullUpstreamBytes { buffered := [4, 2], connStream := [9] } :=
  (hijackDiscardsReadAhead { buffered := [4, 2], connStream := [9] }).2 (by decide)

/-- C2, evaluated at the failing input: a session whose dial succeeds
(upstream connection id 7) and whose websocket.NewClient fails returns
from handleConnection with the upstream connection opened but not
closed; only the local connection is closed. This contradicts the claim
that every connection opened so far is closed before the return. -/
theorem wsUpgradeFailureLeaksUpstream :
    handleConnectionReport (Except.ok 7)
        (Except.error (GoErr.errMsg "websocket: bad status")) =
      { failedAt := some HsStage.wsUpgradeStep, upstreamOpened := true,
        upstreamClosed := false, localClosed := true } := rfl

/-- C1, counterexample: in a session whose first pump completion carries
an error (here a reset) while the second direction would end cleanly,
the orchestrator never receives the second completion, yet both
connections are closed — the error does alter the shutdown path, and
the second direction is not drained before teardown. -/
theorem relayFirstErrorCounterexample :
    RelayAction.recv none ∉
        relayTrace (some (GoErr.errMsg "connection reset by peer")) none ∧
    RelayAction.closeLocal ∈
        relayTrace (some (GoErr.errMsg "connection reset by peer")) none ∧
    RelayAction.closeUpstream ∈
        relayTrace (some (GoErr.errMsg "connection reset by peer")) none := by
  decide

/-- C1, amended: when the first pump completion carries an error, the
error is surfaced (logged) and handleConnection returns at once — both
connections are then closed by the deferred closes without any
half-close attempt and without waiting for the second completion (one
receive only). Only an error arriving as the second completion leaves
the two-phase wait intact: the first (clean) completion triggers the
half-closes, the second is received (two receives), its error is logged,
and both connections are closed. -/
theorem relayErrorShutdown (e : GoErr) (o2 : Option GoErr) :
    RelayAction.logErr e ∈ relayTrace (some e) o2 ∧
    recvCount (relayTrace (some e) o2) = 1 ∧
    RelayAction.closeWriteLocal ∉ relayTrace (some e) o2 ∧
    RelayAction.closeWriteUpstream ∉ relayTrace (some e) o2 ∧
    RelayAction.closeLocal ∈ relayTrace (some e) o2 ∧
    RelayAction.closeUpstream ∈ relayTrace (some e) o2 ∧
    RelayAction.logErr e ∈ relayTrace none (some e) ∧
    recvCount (relayTrace none (some e)) = 2 ∧
    RelayAction.closeLocal ∈ relayTrace none (some e) ∧
    RelayAction.closeUpstream ∈ relayTrace none (some e) := by
  refine ⟨?_, ?_, ?_, ?_, ?_, ?_, ?_, ?_, ?_, ?_⟩ <;>
    simp [relayTrace, pumpLoopTrace, recvCount, isRecv]

/-- Witness for C1 (amended): concrete first-completion error. -/
theorem relayErrorShutdownWitness :
    recvCount (relayTrace (some (GoErr.errMsg "broken pipe")) none) = 1 :=
  (relayErrorShutdown (GoErr.errMsg "broken pipe") none).2.1

/-- C5: in every session whose first pump completion is end of stream,
the orchestrator immediately attempts a write-half-close on the local
and on the upstream connection, then still receives the second pump
completion, and only after it do the two full closes run (they are
absent from the middle segment and trail it); moreover the closeWrite
helper shuts the write half exactly when the connection type supports
the CloseWrite capability and is a no-op otherwise (it never changes
anything else). -/
theorem relayFirstEosHalfClose (o2 : Option GoErr) (c : ConnModel) :
    (relayTrace none o2).take 3 =
        [RelayAction.recv none, RelayAction.closeWriteLocal,
          RelayAction.closeWriteUpstream] ∧
    recvCount (relayTrace none o2) = 2 ∧
    (∃ t, relayTrace none o2 =
        [RelayAction.recv none, RelayAction.closeWriteLocal,
            RelayAction.closeWriteUpstream] ++ t ++
          [RelayAction.closeUpstream, RelayAction.closeLocal] ∧
        t.head? = some (RelayAction.recv o2) ∧
        RelayAction.closeLocal ∉ t ∧
        RelayAction.closeUpstream ∉ t) ∧
    (closeWrite c).writeClosed = (c.writeClosed || c.supportsCloseWrite) ∧
    (closeWrite c).supportsCloseWrite = c.supportsCloseWrite := by
  have hcw : (closeWrite c).writeClosed = (c.writeClosed || c.supportsCloseWrite) ∧
      (closeWrite c).supportsCloseWrite = c.supportsCloseWrite := by
    obtain ⟨s, w⟩ := c
    cases s <;> cases w <;> simp [closeWrite]
  cases o2 with
  | none =>
      refine ⟨rfl, by simp [relayTrace, pumpLoopTrace, recvCount, isRecv],
        ⟨[RelayAction.recv none, RelayAction.closeWriteLocal,
            RelayAction.closeWriteUpstream], by decide, by decide, by decide, by decide⟩,
        hcw.1, hcw.2⟩
  | some e =>
      refine ⟨rfl, by simp [relayTrace, pumpLoopTrace, recvCount, isRecv],
        ⟨[RelayAction.recv (some e), RelayAction.logErr e], ?_, rfl, ?_, ?_⟩,
        hcw.1, hcw.2⟩
      · simp [relayTrace, pumpLoopTrace]
      · simp
      · simp

/-- Witness for C5: both pump directions end cleanly on an unwrapped
connection type that supports CloseWrite. -/
theorem relayFirstEosHalfCloseWitness :
    (relayTrace none none).take 3 =
      [RelayAction.recv none, RelayAction.closeWriteLocal,
        RelayAction.closeWriteUpstream] :=
  (relayFirstEosHalfClose none { supportsCloseWrite := true, writeClosed := false }).1

theorem takeWhile_of_no_colon (l : List Char) (h : ':' ∉ l) :
    l.takeWhile (fun c => c != ':') = l := by
  induction l with
  | nil => rfl
  | cons c rest ih =>
    have hc : (c != ':') = true := by
      simp only [List.mem_cons] at h
      simp [bne]
      intro hx
      exact h (Or.inl hx.symm)
    have hrest : ':' ∉ rest := fun hx => h (List.mem_cons_of_mem c hx)
    simp [List.takeWhile_cons, hc, ih hrest]

/-- A string without a colon is its own prefix before the first colon. -/
theorem hostBeforeColon_of_no_colon (s : String) (h : ':' ∉ s.toList) :
    hostBeforeColon s = s :=
  congrArg String.mk (takeWhile_of_no_colon s.toList h)

/-- C3, counterexample: a non-empty CA directory whose bundle file is
readable but holds content in which the PEM parse finds no certificates
does NOT make getTlsConfig fail: it returns a usable TLS configuration
whose root pool is empty (the Bool result of AppendCertsFromPEM is
discarded at src/client.go line 47), so the listener does start. -/
theorem unparsableCaNotRejected :
    getTlsConfig fsUnparsable parseNoCerts "certs" "" "db.example.com:5671" =
      Except.ok (some
        { rootCAs := [], curvePreferences := [25, 24, 23], minVersion := 0x0303,
          cipherSuites := [0xc030, 0xc02c], serverName := "db.example.com" }) ∧
    mainStartup fsUnparsable parseNoCerts "certs" "" "db.example.com:5671" =
      Startup.listening
        { location := { scheme := "wss", host := "db.example.com:5671" },
          origin := "http://localhost/",
          tlsConfig := some
            { rootCAs := [], curvePreferences := [25, 24, 23], minVersion := 0x0303,
              cipherSuites := [0xc030, 0xc02c], serverName := "db.example.com" } } :=
  ⟨rfl, rfl⟩

/-- C3, amended: for every non-empty CA directory whose CA bundle file
is unreadable, getTlsConfig returns a ConfigError and the listener never
starts (main panics before net.Listen); a readable bundle never fails,
whatever its content parses to. -/
theorem unreadableCaRejected (fs : String → Option String) (parsePEM : String → List Nat)
    (certsDir serverName targetHost : String)
    (hdir : certsDir ≠ "") (hfs : fs (cacertPath certsDir) = none) :
    getTlsConfig fs parsePEM certsDir serverName targetHost =
        Except.error (ConfigErr.readFailed "Failed reading CA certificate") ∧
    mainStartup fs parsePEM certsDir serverName targetHost =
        Startup.panicked (ConfigErr.readFailed "Failed reading CA certificate") := by
  constructor
  · simp [getTlsConfig, hdir, hfs]
  · simp [mainStartup, getWsConfig, getTlsConfig, hdir, hfs]

/-- Witness for C3 (amended): a missing bundle file aborts startup. -/
theorem unreadableCaRejectedWitness :
    mainStartup fsAbsent parseNoCerts "certs" "" "db.example.com:5671" =
      Startup.panicked (ConfigErr.readFailed "Failed reading CA certificate") :=
  (unreadableCaRejected fsAbsent parseNoCerts "certs" "" "db.example.com:5671"
      (by decide) rfl).2

/-- C6: whenever getTlsConfig succeeds with a TLS configuration (which
requires a CA directory to be set), its verification server name is the
serverName override when that is non-empty, and otherwise the substring
of targetHost before the first colon; and for a targetHost without a
colon that substring is the whole of targetHost. -/
theorem tlsServerNameResolution (fs : String → Option String)
    (parsePEM : String → List Nat) (certsDir serverName targetHost : String)
    (cfg : TlsCfg)
    (hok : getTlsConfig fs parsePEM certsDir serverName targetHost =
        Except.ok (some cfg)) :
    cfg.serverName =
        (if serverName = "" then hostBeforeColon targetHost else serverName) ∧
    (':' ∉ targetHost.toList → hostBeforeColon targetHost = targetHost) := by
  refine ⟨?_, hostBeforeColon_of_no_colon targetHost⟩
  by_cases hc : certsDir = ""
  · simp [getTlsConfig, hc] at hok
  · cases hfs : fs (cacertPath certsDir) with
    | none => simp [getTlsConfig, hc, hfs] at hok
    | some ca =>
        have hred : getTlsConfig fs parsePEM certsDir serverName targetHost =
            Except.ok (some
              { rootCAs := parsePEM ca, curvePreferences := [25, 24, 23],
                minVersion := 0x0303, cipherSuites := [0xc030, 0xc02c],
                serverName :=
                  if serverName ≠ "" then serverName
                  else goSplitHead targetHost ':' }) := by
          unfold getTlsConfig
          rw [if_neg hc, hfs]
        rw [hred] at hok
        have hcfg := Option.some.inj (Except.ok.inj hok)
        rw [← hcfg]
        by_cases hs : serverName = ""
        · simp [hs, goSplitHead_eq_hostBeforeColon]
        · simp [hs]

/-- Witness for C6: empty override, target db.example.com:5671. -/
theorem tlsServerNameResolutionWitness :
    ("db.example.com" : String) =
      (if ("" : String) = "" then hostBeforeColon "db.example.com:5671" else "") :=
  (tlsServerNameResolution fsReadable parseOneCert "certs" "" "db.example.com:5671"
      { rootCAs := [1], curvePreferences := [25, 24, 23], minVersion := 0x0303,
        cipherSuites := [0xc030, 0xc02c], serverName := "db.example.com" } rfl).1

/-- C7: the config construction and the per-session handshake agree on
the TLS decision. Whenever getWsConfig succeeds: the location scheme is
wss exactly when a CA directory is configured, and exactly when
handleConnection wraps the dialed connection as a TLS client; with no
CA directory the scheme is ws, the embedded TLS config is the no-TLS
sentinel, no wrapping occurs, and getTlsConfig itself returned the
sentinel rather than an error; in both cases the location string is
scheme://targetHost and the origin is the fixed constant. -/
theorem wsConfigTlsAgreement (fs : String → Option String)
    (parsePEM : String → List Nat) (certsDir serverName targetHost : String)
    (cfg : WsCfg) (tcp : Nat)
    (hok : getWsConfig fs parsePEM certsDir serverName targetHost = Except.ok cfg) :
    (cfg.location.scheme = "wss" ↔ certsDir ≠ "") ∧
    (cfg.location.scheme = "wss" ↔
        wrapUpstream certsDir tcp = UpstreamConn.tlsWrapped tcp) ∧
    (certsDir = "" →
        cfg.location.scheme = "ws" ∧ cfg.tlsConfig = none ∧
        wrapUpstream certsDir tcp = UpstreamConn.plain tcp ∧
        getTlsConfig fs parsePEM certsDir serverName targetHost = Except.ok none) ∧
    urlString cfg.location = cfg.location.scheme ++ "://" ++ targetHost ∧
    cfg.origin = "http://localhost/" := by
  cases ht : getTlsConfig fs parsePEM certsDir serverName targetHost with
  | error e => simp [getWsConfig, ht] at hok
  | ok t =>
      simp only [getWsConfig, ht, Except.ok.injEq] at hok
      rw [← hok]
      by_cases hc : certsDir = ""
      · have hnone : t = none := by
          rw [hc] at ht
          simpa [getTlsConfig] using ht.symm
        refine ⟨by simp [hc], by simp [hc, wrapUpstream], ?_, by simp [urlString], rfl⟩
        intro _
        exact ⟨by simp [hc], hnone, by simp [hc, wrapUpstream], by rw [hnone]⟩
      · refine ⟨by simp [hc], by simp [hc, wrapUpstream], ?_, by simp [urlString], rfl⟩
        intro h
        exact absurd h hc

/-- Witness for C7: no CA directory configured. -/
theorem wsConfigTlsAgreementWitness :
    getTlsConfig fsAbsent parseNoCerts "" "" "tunnel.example:443" = Except.ok none :=
  ((wsConfigTlsAgreement fsAbsent parseNoCerts "" "" "tunnel.example:443"
      { location := { scheme := "ws", host := "tunnel.example:443" },
        origin := "http://localhost/", tlsConfig := none } 0 rfl).2.2.1 rfl).2.2.2

end Wstunnel
